import Mathlib

/-!
Verification of the plugin-icp-nns repository's Proposal Query Engine.

The development shallowly embeds the TypeScript source:
* `src/src/topic.ts` and `src/src/status.ts`: the `Topic` and
  `ProposalStatus` constant objects together with the reverse-mapping
  mutation (`Object.entries(X).forEach(([name, value]) => X[value] = name)`).
* the plugin module (final version): `fetchProposals` (request
  construction, including the topic exclusion loop over
  `Object.entries(Topic)`), the `governanceProvider.get` command regex,
  and the per-proposal detail/filter/emit loop.

JavaScript machine values are modelled as follows: candid `opt` values are
Lean `List`s of length at most one exactly as the JS agent represents them
(`[]` / `[x]`), dynamically typed record fields carried to the caller are a
`JSValue` (string, bigint or undefined), numeric codes are `Nat` (every
number reaching them is produced by `parseInt` on a digit string), and a
thrown `TypeError` is `Except.error ()`.
-/

namespace ICPNNS

/-! ### Enum registries (src/src/topic.ts, src/src/status.ts) -/

/-- Entries of the `Topic` constant in topic.ts, in source (insertion)
order, name to integer code. Code 11 is absent in the source. -/
def topicEntries : List (String × Nat) :=
  [("Unspecified", 0), ("NeuronManagement", 1), ("ExchangeRate", 2),
   ("NetworkEconomics", 3), ("Governance", 4), ("NodeAdmin", 5),
   ("ParticipantManagement", 6), ("SubnetManagement", 7),
   ("NetworkCanisterManagement", 8), ("Kyc", 9), ("NodeProviderRewards", 10),
   ("IcOsVersionDeployment", 12), ("IcOsVersionElection", 13),
   ("SnsAndCommunityFund", 14), ("ApiBoundaryNodeManagement", 15),
   ("SubnetRental", 16), ("ProtocolCanisterManagement", 17),
   ("ServiceNervousSystemManagement", 18)]

/-- Entries of the `ProposalStatus` constant in status.ts, in source
(insertion) order. -/
def statusEntries : List (String × Nat) :=
  [("Unspecified", 0), ("Open", 1), ("Rejected", 2), ("Adopted", 3),
   ("Executed", 4), ("Failed", 5)]

/-- A value stored in a registry object after the reverse-mapping mutation:
either an integer code (an original forward entry) or a name (a reverse
entry written by `X[value] = name`). -/
inductive RegVal where
  | code (c : Nat)
  | name (s : String)
  deriving DecidableEq, Repr

/-- The registry object after the reverse-mapping mutation, as a key-value
list in JavaScript own-property enumeration order: integer-like keys in
ascending numeric order first (which coincides with entry order here, since
both registries list their codes in ascending order), then the string keys
in insertion order. A numeric key is stored as its decimal string, exactly
as JavaScript coerces `X[value]`. -/
def mutatedRegistry (entries : List (String × Nat)) : List (String × RegVal) :=
  (entries.map (fun e => (Nat.repr e.2, RegVal.name e.1)))
    ++ entries.map (fun e => (e.1, RegVal.code e.2))

/-- The `Topic` object after topic.ts has run its reverse-mapping loop. -/
def topicObject : List (String × RegVal) := mutatedRegistry topicEntries

/-- The `ProposalStatus` object after status.ts has run its
reverse-mapping loop. -/
def statusObject : List (String × RegVal) := mutatedRegistry statusEntries

/-- JS property lookup `obj[k]` on the modelled object (`none` is
`undefined`). Keys of the modelled objects are unique, so first-match
lookup agrees with JS object semantics. -/
def objGet (o : List (String × RegVal)) (k : String) : Option RegVal :=
  (o.find? (fun e => e.1 = k)).map (fun e => e.2)

/-- Resolve a code to its registered name through the object's reverse
mapping: JS `Registry[c]` (the numeric index is coerced to its decimal
string by JS property access). -/
def codeToName (o : List (String × RegVal)) (c : Nat) : Option String :=
  match objGet o (Nat.repr c) with
  | some (RegVal.name s) => some s
  | _ => none

/-- Resolve a registered name back to its code: JS `Registry[name]`. -/
def nameToCode (o : List (String × RegVal)) (s : String) : Option Nat :=
  match objGet o s with
  | some (RegVal.code c) => some c
  | _ => none

/-! ### JS number parsing

`parseInt(s, 10)` as it is used in this program: every string it receives
(object keys of the registries, regex captures of `\d+`, and
`Number.prototype.toString()` output) has no leading whitespace or sign,
so the model takes the value of the longest leading run of ASCII decimal
digits, and `none` (JS `NaN`) when there is none. -/

/-- ASCII decimal digit test (`\d` in the regex, and the digits accepted
by `parseInt`). -/
def isDigitCh (c : Char) : Bool := 48 ≤ c.toNat && c.toNat ≤ 57

/-- Numeric value of an ASCII digit character. -/
def digitVal (c : Char) : Nat := c.toNat - 48

/-- Fold the value of a leading digit run, stopping at the first
non-digit. -/
def parseDigitRun : List Char → Nat → Nat
  | [], acc => acc
  | c :: cs, acc =>
    if isDigitCh c then parseDigitRun cs (10 * acc + digitVal c) else acc

/-- `parseInt(s, 10)` on the strings occurring in this program. -/
def jsParseInt (s : String) : Option Nat :=
  match s.data with
  | [] => none
  | c :: cs => if isDigitCh c then some (parseDigitRun (c :: cs) 0) else none

/-! ### fetchProposals request construction (final plugin version) -/

/-- The ToInt32 conversion `Int32Array.from` applies to each element: the
(nonnegative, since it comes from `parseInt` on a digit capture) number is
reduced modulo 2^32 and mapped into the signed 32-bit range. -/
def toInt32 (n : Nat) : Int :=
  let m := n % 4294967296
  if m < 2147483648 then (m : Int) else (m : Int) - 4294967296

/-- The `ListProposalInfo` request record sent to `list_proposals`.
Candid `opt`/`vec` fields are lists, as the JS agent represents them.
`include_status` holds signed 32-bit values because the source builds it
with `Int32Array.from`; `exclude_topic` is filled directly from `parseInt`
of the registry keys (0..18, no conversion in the source). -/
structure ListProposalInfo where
  include_reward_status : List Nat
  exclude_topic : List Nat
  include_status : List Int
  omit_large_fields : List Bool
  before_proposal : List Nat
  include_all_manage_neuron_proposals : List Bool
  limit : Nat
  deriving DecidableEq, Repr

/-- The exclusion list built by `fetchProposals` when a topic filter is
present: iterate `Object.entries(Topic)` on the mutated object, take
`parseInt` of each key, and push every non-NaN value distinct from the
filter. -/
def excludeTopicList (topicFilter : Nat) : List Nat :=
  (topicObject.map Prod.fst).filterMap (fun k =>
    match jsParseInt k with
    | some t => if t ≠ topicFilter then some t else none
    | none => none)

/-- `fetchProposals`' request construction: `exclude_topic` from the loop
above when a topic filter is given, `include_status` the singleton
`Int32Array.from([statusFilter])` (ToInt32 wrap applied) when a status
filter is given, every other optional field empty. -/
def buildRequest (limit : Nat) (statusFilter topicFilter : Option Nat) :
    ListProposalInfo :=
  { include_reward_status := []
    exclude_topic :=
      match topicFilter with
      | some t => excludeTopicList t
      | none => []
    include_status :=
      match statusFilter with
      | some s => [toInt32 s]
      | none => []
    omit_large_fields := []
    before_proposal := []
    include_all_manage_neuron_proposals := []
    limit := limit }

/-! ### Helper lemmas for the exclusion list -/

/-- The codes registered in `Topic`, in entry order. -/
def topicCodes : List Nat := topicEntries.map Prod.snd

/-- The codes registered in `ProposalStatus`, in entry order. -/
def statusCodes : List Nat := statusEntries.map Prod.snd

lemma filterMap_parse_of_repr (t : Nat) :
    ∀ (cs : List Nat), (∀ c ∈ cs, jsParseInt (Nat.repr c) = some c) →
      (cs.map Nat.repr).filterMap (fun k =>
        match jsParseInt k with
        | some v => if v ≠ t then some v else none
        | none => none) = cs.filter (fun c => c ≠ t) := by
  intro cs
  induction cs with
  | nil => intro _; rfl
  | cons c cs ih =>
    intro h
    have hc : jsParseInt (Nat.repr c) = some c := h c (by simp)
    have hrest := ih (fun x hx => h x (by simp [hx]))
    simp only [List.map_cons, List.filterMap_cons, List.filter_cons, hc]
    by_cases hct : c = t
    · rw [if_neg (by simp [hct]), if_neg (by simp [hct])]
      exact hrest
    · rw [if_pos (by simp [hct]), if_pos (by simp [hct]), hrest]

lemma excludeTopicList_eq_filter (t : Nat) :
    excludeTopicList t = topicCodes.filter (fun c => c ≠ t) := by
  have hkeys : topicObject.map Prod.fst
      = topicCodes.map Nat.repr ++ topicEntries.map Prod.fst := by
    rfl
  rw [excludeTopicList, hkeys, List.filterMap_append]
  have hnames : (topicEntries.map Prod.fst).filterMap (fun k =>
      match jsParseInt k with
      | some v => if v ≠ t then some v else none
      | none => none) = [] := by
    rfl
  rw [hnames, List.append_nil]
  exact filterMap_parse_of_repr t topicCodes (by decide)

/-! ### Claim theorems about the request -/

/-- Claim C1 as amended: with a topic filter `t` the request's
`exclude_topic` is, as a set, all registered Topic codes (0..10 and
12..18) minus `t`; with a status filter `s` the request's
`include_status` is the single-element list `[toInt32 s]` — the parsed
status wrapped into the signed 32-bit range by `Int32Array.from`, which
equals `s` for every registered status code (and every `s` below 2^31);
when a filter is absent the corresponding request list is empty. -/
theorem C1_request_filters (limit t s : Nat) (s? t? : Option Nat) :
    (buildRequest limit s? (some t)).exclude_topic.toFinset
        = ({0, 1, 2, 3, 4, 5, 6, 7, 8, 9, 10, 12, 13, 14, 15, 16, 17, 18} :
            Finset Nat) \ {t}
    ∧ (buildRequest limit (some s) t?).include_status = [toInt32 s]
    ∧ statusCodes.map toInt32 = statusCodes.map (fun c => (c : Int))
    ∧ (buildRequest limit s? none).exclude_topic = []
    ∧ (buildRequest limit none t?).include_status = [] := by
  refine ⟨?_, rfl, by decide, rfl, rfl⟩
  show (excludeTopicList t).toFinset = _
  rw [excludeTopicList_eq_filter]
  ext x
  have hmem : x ∈ topicCodes ↔
      x = 0 ∨ x = 1 ∨ x = 2 ∨ x = 3 ∨ x = 4 ∨ x = 5 ∨ x = 6 ∨ x = 7 ∨
      x = 8 ∨ x = 9 ∨ x = 10 ∨ x = 12 ∨ x = 13 ∨ x = 14 ∨ x = 15 ∨
      x = 16 ∨ x = 17 ∨ x = 18 := by
    simp [topicCodes, topicEntries]
  simp [List.mem_toFinset, List.mem_filter, Finset.mem_sdiff,
    Finset.mem_insert, Finset.mem_singleton, hmem, and_comm]

/-- Claim C10: for every input, the four request fields
`include_reward_status`, `omit_large_fields`, `before_proposal` and
`include_all_manage_neuron_proposals` are empty; only `limit`,
`exclude_topic` and `include_status` ever vary, so no pagination cursor or
reward-status constraint is ever requested. -/
theorem C10_constant_fields (limit : Nat) (s? t? : Option Nat) :
    (buildRequest limit s? t?).include_reward_status = []
    ∧ (buildRequest limit s? t?).omit_large_fields = []
    ∧ (buildRequest limit s? t?).before_proposal = []
    ∧ (buildRequest limit s? t?).include_all_manage_neuron_proposals = [] :=
  ⟨rfl, rfl, rfl, rfl⟩

/-- Claim C8: for every code registered in `Topic` and every code
registered in `ProposalStatus`, resolving the code to its name through
the registry's reverse mapping and resolving that name back gives the
original code. -/
theorem C8_enum_round_trip :
    (topicCodes.all (fun c =>
        (codeToName topicObject c).bind (nameToCode topicObject) = some c))
    ∧ (statusCodes.all (fun c =>
        (codeToName statusObject c).bind (nameToCode statusObject) = some c)) := by
  decide

/-! ### The command regex

`governanceProvider.get` matches the incoming text against
`/^!proposals(?:\s+(\d+))?(?:\s+topic\s+(\d+))?(?:\s+status\s+(\d+))?$/i`.
The matcher below is a direct embedding of this particular anchored
pattern. Maximal-munch without backtracking is equivalent to the regex
here: each `\s+`/`\d+` run is followed by a token that cannot begin with a
character of the same class, and skipping an optional group can never
rescue a match in which the group succeeded, because the remaining input
then starts with a character no later alternative accepts. `\s` is
modelled as ASCII whitespace (the only whitespace these commands use). -/

/-- `\s` of the command regex (ASCII whitespace). -/
def isWsCh (c : Char) : Bool :=
  c.toNat = 32 || c.toNat = 9 || c.toNat = 10 || c.toNat = 13 ||
    c.toNat = 11 || c.toNat = 12

/-- Greedy run of characters satisfying `p`: returns the consumed run and
the remaining input. -/
def munch (p : Char → Bool) : List Char → List Char × List Char
  | [] => ([], [])
  | c :: cs =>
    if p c then
      let r := munch p cs
      (c :: r.1, r.2)
    else ([], c :: cs)

/-- Case-insensitive literal match (the regex `i` flag): strips `lit` from
the front of the input, comparing lowercased characters. -/
def stripCI : List Char → List Char → Option (List Char)
  | [], input => some input
  | _ :: _, [] => none
  | l :: ls, c :: cs => if l.toLower = c.toLower then stripCI ls cs else none

/-- `\s+`: one or more whitespace characters, returning the rest. -/
def wsThen (input : List Char) : Option (List Char) :=
  let r := munch isWsCh input
  if r.1 = [] then none else some r.2

/-- `(\d+)`: one or more digits, returning the capture and the rest. -/
def munchDigits (input : List Char) : Option (List Char × List Char) :=
  let r := munch isDigitCh input
  if r.1 = [] then none else some r

/-- One optional group of the regex: `\s+(\d+)` when `kw` is none,
`\s+kw\s+(\d+)` when `kw` is a keyword. Returns the capture and the rest,
or `none` when the group does not match at this position. -/
def groupNum (kw : Option (List Char)) (input : List Char) :
    Option (List Char × List Char) :=
  match wsThen input with
  | none => none
  | some r1 =>
    match kw with
    | none => munchDigits r1
    | some k =>
      match stripCI k r1 with
      | none => none
      | some r2 =>
        match wsThen r2 with
        | none => none
        | some r3 => munchDigits r3

/-- `(?:...)?`: attempt a group; on failure consume nothing and leave the
capture `undefined`. -/
def optGroup (kw : Option (List Char)) (input : List Char) :
    Option (List Char) × List Char :=
  match groupNum kw input with
  | some r => (some r.1, r.2)
  | none => (none, input)

/-- The full anchored regex: literal `!proposals`, the three optional
groups in order, then end of input. `none` is a failed match (JS `null`);
a successful match carries the three captures. -/
def regexMatchList (cs : List Char) :
    Option (Option (List Char) × Option (List Char) × Option (List Char)) :=
  match stripCI "!proposals".data cs with
  | none => none
  | some r0 =>
    let g1 := optGroup none r0
    let g2 := optGroup (some "topic".data) g1.2
    let g3 := optGroup (some "status".data) g2.2
    if g3.2 = [] then some (g1.1, g2.1, g3.1) else none

/-- The parsed query of `governanceProvider.get`. -/
structure ParsedQuery where
  limit : Nat
  topicFilter : Option Nat
  statusFilter : Option Nat
  deriving DecidableEq, Repr

/-- `parseInt` on a regex capture. A capture of `(\d+)` is a nonempty
all-digit string, on which `parseInt` is exactly the digit-run value. -/
def capturedNat (d : List Char) : Nat := parseDigitRun d 0

/-- The argument parsing of `governanceProvider.get`: on a failed match,
or an unmatched group, `limit` defaults to 10 and the filters stay unset
(a capture is never the empty string, so JS truthiness of `match[i]`
coincides with the group having matched). -/
def parseCommand (text : String) : ParsedQuery :=
  match regexMatchList text.data with
  | none => { limit := 10, topicFilter := none, statusFilter := none }
  | some (g1, g2, g3) =>
    { limit := match g1 with
        | some d => capturedNat d
        | none => 10
      topicFilter := g2.map capturedNat
      statusFilter := g3.map capturedNat }

/-- The `list_proposals` request that `governanceProvider.get` sends for a
given input text: parse, then `fetchProposals(limit, statusFilter,
topicFilter)`. -/
def requestFor (text : String) : ListProposalInfo :=
  let q := parseCommand text
  buildRequest q.limit q.statusFilter q.topicFilter

/-! ### The per-proposal loop of governanceProvider.get -/

/-- A dynamically typed JS value reaching the emitted record: a string, a
bigint, or `undefined`. -/
inductive JSValue where
  | str (s : String)
  | big (n : Nat)
  | undef
  deriving DecidableEq, Repr

/-- Whether a JS value is a string. -/
def JSValue.isStr : JSValue → Bool
  | .str _ => true
  | _ => false

/-- Whether a JS value is a bigint. -/
def JSValue.isBig : JSValue → Bool
  | .big _ => true
  | _ => false

/-- The record inside the candid `opt` field `id` of a listed proposal
(`p.id[0]` has one field, `id : nat64`). -/
structure ProposalIdRec where
  id : Nat
  deriving DecidableEq, Repr

/-- The fields the loop reads from `p.proposal[0]`: `title : opt text`
(`title[0]` is `undefined` when absent) and `summary : text`. -/
structure ProposalPayload where
  title : Option String
  summary : String
  deriving DecidableEq, Repr

/-- A listed proposal as the loop reads it: `id` and `proposal` are candid
`opt` fields, represented as lists of length at most one. -/
structure ProposalHandle where
  id : List ProposalIdRec
  proposal : List ProposalPayload
  deriving DecidableEq, Repr

/-- The fields read from the `get_proposal_info` detail result. -/
structure ProposalDetail where
  topic : Nat
  status : Nat
  proposal_timestamp_seconds : Nat
  deriving DecidableEq, Repr

/-- The record pushed onto `proposals` for a surviving item. -/
structure EmittedRecord where
  id : JSValue
  title : JSValue
  summary : JSValue
  topic : JSValue
  status : JSValue
  timestamp : JSValue
  deriving DecidableEq, Repr

/-- `summary || ''`: the JS or-default on the summary string (the empty
string is the only falsy string). -/
def jsOrEmptyStr (s : String) : String := if s = "" then "" else s

/-- One client-side filter check of the loop:
`filt !== undefined && parseInt(codeStr) !== filt` — `true` means the item
is skipped by `continue`. -/
def skipByFilter (filt : Option Nat) (codeStr : String) : Bool :=
  match filt with
  | some f => decide (jsParseInt codeStr ≠ some f)
  | none => false

/-- One iteration of the `for (const p of response.proposal_info)` loop.
`Except.error ()` is a thrown `TypeError` (a property access on
`undefined`), which aborts the whole query; `.ok none` is an item skipped
by `continue`; `.ok (some r)` pushes `r`. -/
def itemStep (topicFilter statusFilter : Option Nat)
    (details : Nat → Option ProposalDetail) (p : ProposalHandle) :
    Except Unit (Option EmittedRecord) :=
  match p.id with
  | [] => .error ()
  | pid :: _ =>
    match p.proposal with
    | [] => .error ()
    | payload :: _ =>
      let idStr := Nat.repr pid.id
      let summary := jsOrEmptyStr payload.summary
      match details pid.id with
      | none => .error ()
      | some info =>
        let topicStr := Nat.repr info.topic
        let statusStr := Nat.repr info.status
        if skipByFilter topicFilter topicStr then .ok none
        else if skipByFilter statusFilter statusStr then .ok none
        else .ok (some
          { id := .str idStr
            title := match payload.title with
              | some t => .str t
              | none => .undef
            summary := .str summary
            topic := .str topicStr
            status := .str statusStr
            timestamp := .big info.proposal_timestamp_seconds })

/-- The whole loop over the list response, accumulating the pushed
records in order; any thrown `TypeError` aborts the query. -/
def processProposals (topicFilter statusFilter : Option Nat)
    (details : Nat → Option ProposalDetail) :
    List ProposalHandle → Except Unit (List EmittedRecord)
  | [] => .ok []
  | p :: ps =>
    match itemStep topicFilter statusFilter details p with
    | .error e => .error e
    | .ok r? =>
      match processProposals topicFilter statusFilter details ps with
      | .error e => .error e
      | .ok rest => .ok (match r? with
        | some r => r :: rest
        | none => rest)

/-- `governanceProvider.get` on a given input text, with the remote world
supplied as parameters: `details` answers the per-id `get_proposal_info`
calls and `response` is the `list_proposals` response's `proposal_info`
sequence. The provider returns `{ data: { proposals } }`; the model
returns the `proposals` list (or the thrown error). -/
def governanceGet (text : String) (details : Nat → Option ProposalDetail)
    (response : List ProposalHandle) : Except Unit (List EmittedRecord) :=
  let q := parseCommand text
  processProposals q.topicFilter q.statusFilter details response

/-! ### Structure of a successful loop run -/

/-- The numeric code carried by an emitted record field: `parseInt` of the
field when it is a string (as the loop's own client-side re-check reads
it), `NaN` otherwise. -/
def recCode (v : JSValue) : Option Nat :=
  match v with
  | .str s => jsParseInt s
  | _ => none

/-- Anatomy of an iteration that pushed a record: the handle's `opt`
fields were populated, the detail fetch succeeded, both client-side filter
checks passed, and the record is exactly the pushed literal. -/
lemma itemStep_ok_some_eq (t? s? : Option Nat)
    (details : Nat → Option ProposalDetail) (p : ProposalHandle)
    (r : EmittedRecord) (h : itemStep t? s? details p = .ok (some r)) :
    ∃ pid restI payload restP info,
      p.id = pid :: restI ∧ p.proposal = payload :: restP ∧
      details pid.id = some info ∧
      skipByFilter t? (Nat.repr info.topic) = false ∧
      skipByFilter s? (Nat.repr info.status) = false ∧
      r = { id := .str (Nat.repr pid.id)
            title := match payload.title with
              | some t => .str t
              | none => .undef
            summary := .str (jsOrEmptyStr payload.summary)
            topic := .str (Nat.repr info.topic)
            status := .str (Nat.repr info.status)
            timestamp := .big info.proposal_timestamp_seconds } := by
  obtain ⟨pidList, propList⟩ := p
  cases pidList with
  | nil => simp [itemStep] at h
  | cons pid restI =>
    cases propList with
    | nil => simp [itemStep] at h
    | cons payload restP =>
      cases hdet : details pid.id with
      | none => simp [itemStep, hdet] at h
      | some info =>
        simp only [itemStep, hdet] at h
        cases h1 : skipByFilter t? (Nat.repr info.topic) with
        | true => simp [h1] at h
        | false =>
          cases h2 : skipByFilter s? (Nat.repr info.status) with
          | true => simp [h1, h2] at h
          | false =>
            simp only [h1, h2, Bool.false_eq_true, if_false] at h
            refine ⟨pid, restI, payload, restP, info, rfl, rfl, hdet,
              h1, h2, ?_⟩
            exact (Option.some.inj (Except.ok.inj h)).symm

/-- Every record in a successful run was pushed by some iteration. -/
lemma processProposals_ok_forall (t? s? : Option Nat)
    (details : Nat → Option ProposalDetail) (P : EmittedRecord → Prop)
    (hP : ∀ p r, itemStep t? s? details p = .ok (some r) → P r) :
    ∀ (l : List ProposalHandle) (recs : List EmittedRecord),
      processProposals t? s? details l = .ok recs → ∀ r ∈ recs, P r := by
  intro l
  induction l with
  | nil =>
    intro recs h r hr
    simp only [processProposals] at h
    cases h
    simp at hr
  | cons p ps ih =>
    intro recs h r hr
    cases hstep : itemStep t? s? details p with
    | error e => simp [processProposals, hstep] at h
    | ok r? =>
      cases hrest : processProposals t? s? details ps with
      | error e => simp [processProposals, hstep, hrest] at h
      | ok rest =>
        simp only [processProposals, hstep, hrest] at h
        cases r? with
        | none =>
          cases h
          exact ih rest hrest r hr
        | some r0 =>
          cases h
          rcases List.mem_cons.mp hr with hr0 | hmem
          · exact hr0 ▸ hP p r0 hstep
          · exact ih rest hrest r hmem

/-- The per-item view of a whole run: each item contributes its pushed
record, in list order. -/
def survivors (t? s? : Option Nat) (details : Nat → Option ProposalDetail)
    (l : List ProposalHandle) : List EmittedRecord :=
  l.filterMap (fun p =>
    match itemStep t? s? details p with
    | .ok (some r) => some r
    | _ => none)

/-- A successful run returns exactly the survivors, in response order. -/
lemma processProposals_ok_eq_survivors (t? s? : Option Nat)
    (details : Nat → Option ProposalDetail) :
    ∀ (l : List ProposalHandle) (recs : List EmittedRecord),
      processProposals t? s? details l = .ok recs →
      recs = survivors t? s? details l := by
  intro l
  induction l with
  | nil =>
    intro recs h
    cases h
    rfl
  | cons p ps ih =>
    intro recs h
    cases hstep : itemStep t? s? details p with
    | error e => simp [processProposals, hstep] at h
    | ok r? =>
      cases hrest : processProposals t? s? details ps with
      | error e => simp [processProposals, hstep, hrest] at h
      | ok rest =>
        simp only [processProposals, hstep, hrest] at h
        cases r? with
        | none =>
          cases h
          simp only [survivors, List.filterMap_cons, hstep]
          exact ih rest hrest
        | some r0 =>
          cases h
          have hr := ih rest hrest
          simp only [survivors, List.filterMap_cons, hstep] at hr ⊢
          rw [hr]

/-! ### Claim theorems about the loop -/

/-- Claim C2: every record emitted by `governanceProvider.get` satisfies
both parsed filters simultaneously: when a topic filter `t` was parsed the
record's topic code is `t`, and when a status filter `s` was parsed the
record's status code is `s` — both enforced by the client-side re-check
against the resolved detail. -/
theorem C2_records_satisfy_filters (text : String)
    (details : Nat → Option ProposalDetail) (response : List ProposalHandle)
    (recs : List EmittedRecord)
    (h : governanceGet text details response = .ok recs) :
    ∀ r ∈ recs,
      (∀ t, (parseCommand text).topicFilter = some t →
        recCode r.topic = some t)
      ∧ (∀ s, (parseCommand text).statusFilter = some s →
        recCode r.status = some s) := by
  refine processProposals_ok_forall (parseCommand text).topicFilter
    (parseCommand text).statusFilter details _ ?_ response recs h
  intro p r hstep
  obtain ⟨pid, restI, payload, restP, info, -, -, -, h1, h2, hr⟩ :=
    itemStep_ok_some_eq _ _ details p r hstep
  subst hr
  constructor
  · intro t ht
    rw [ht] at h1
    simp only [skipByFilter, decide_eq_false_iff_not, not_not] at h1
    exact h1
  · intro s hs
    rw [hs] at h2
    simp only [skipByFilter, decide_eq_false_iff_not, not_not] at h2
    exact h2

/-- Witness for C2 at a concrete query: `!proposals 5 topic 3 status 2`
with one listed proposal whose detail has topic 3 and status 2; the
emitted record's fields parse back to the two filters. -/
theorem C2_witness :
    recCode (JSValue.str "3") = some 3 ∧ recCode (JSValue.str "2") = some 2 := by
  have h := C2_records_satisfy_filters "!proposals 5 topic 3 status 2"
    (fun _ => some ⟨3, 2, 100⟩) [⟨[⟨1⟩], [⟨some "T", "S"⟩]⟩]
    [⟨.str "1", .str "T", .str "S", .str "3", .str "2", .big 100⟩] (by rfl)
  have hr := h ⟨.str "1", .str "T", .str "S", .str "3", .str "2", .big 100⟩
    (by simp)
  exact ⟨hr.1 3 (by rfl), hr.2 2 (by rfl)⟩

/-- Claim C4 is a code bug: the spec says an empty `get_proposal_info`
result should make the engine skip the item and continue, but the loop
dereferences the empty option (`pInfoResult[0].topic`) and throws,
aborting the whole query. Failing input: two listed proposals, the first
id's detail fetch empty — the run returns the thrown error instead of the
second proposal's record. -/
theorem C4_empty_detail_aborts :
    processProposals none none
      (fun n => if n = 1 then none else some ⟨4, 2, 50⟩)
      [⟨[⟨1⟩], [⟨some "A", "sa"⟩]⟩, ⟨[⟨2⟩], [⟨some "B", "sb"⟩]⟩]
      = .error () := by rfl

/-- Counterexample to claim C5 as stated: a run in which the emitted
record's `timestamp` is the raw bigint, not a string, and its `title`
(absent upstream) is `undefined`, not a string. -/
theorem C5_counterexample :
    processProposals none none (fun _ => some ⟨4, 2, 77⟩)
      [⟨[⟨9⟩], [⟨none, "sum"⟩]⟩]
      = .ok [⟨.str "9", .undef, .str "sum", .str "4", .str "2", .big 77⟩]
    ∧ JSValue.isStr (JSValue.big 77) = false
    ∧ JSValue.isStr JSValue.undef = false :=
  ⟨rfl, rfl, rfl⟩

/-- Claim C5 as amended: every emitted record has fields
`{id, title, summary, topic, status, timestamp}` where `id`, `summary`,
`topic` and `status` are strings (the 64-bit identifier is stringified),
`title` is a string when present upstream and `undefined` otherwise, and
`timestamp` is the raw 64-bit integer, not stringified. -/
theorem C5_amended_record_shape (text : String)
    (details : Nat → Option ProposalDetail) (response : List ProposalHandle)
    (recs : List EmittedRecord)
    (h : governanceGet text details response = .ok recs) :
    ∀ r ∈ recs,
      r.id.isStr = true ∧ r.summary.isStr = true ∧ r.topic.isStr = true
      ∧ r.status.isStr = true ∧ r.timestamp.isBig = true
      ∧ (r.title.isStr = true ∨ r.title = .undef) := by
  refine processProposals_ok_forall (parseCommand text).topicFilter
    (parseCommand text).statusFilter details _ ?_ response recs h
  intro p r hstep
  obtain ⟨pid, restI, payload, restP, info, -, -, -, -, -, hr⟩ :=
    itemStep_ok_some_eq _ _ details p r hstep
  subst hr
  refine ⟨rfl, rfl, rfl, rfl, rfl, ?_⟩
  cases payload.title with
  | some t => exact Or.inl rfl
  | none => exact Or.inr rfl

/-- Witness for the amended C5 at a concrete run. -/
theorem C5_amended_witness :
    JSValue.isStr (JSValue.str "9") = true
    ∧ JSValue.isBig (JSValue.big 77) = true := by
  have h := C5_amended_record_shape "!proposals"
    (fun _ => some ⟨4, 2, 77⟩) [⟨[⟨9⟩], [⟨some "T", "sum"⟩]⟩]
    [⟨.str "9", .str "T", .str "sum", .str "4", .str "2", .big 77⟩] (by rfl)
  have hr := h ⟨.str "9", .str "T", .str "sum", .str "4", .str "2", .big 77⟩
    (by simp)
  exact ⟨hr.1, hr.2.2.2.2.1⟩

/-- Claim C6: on input that the command regex does not match at all, the
provider still applies the defaults — limit 10 and no filters — and runs
the query exactly as `!proposals` would, rather than rejecting the input
or doing nothing. -/
theorem C6_lenient_defaults (text : String)
    (details : Nat → Option ProposalDetail) (response : List ProposalHandle)
    (h : regexMatchList text.data = none) :
    parseCommand text = ⟨10, none, none⟩
    ∧ requestFor text = buildRequest 10 none none
    ∧ governanceGet text details response
        = governanceGet "!proposals" details response := by
  have hp : parseCommand text = ⟨10, none, none⟩ := by
    simp [parseCommand, h]
  have hq : parseCommand "!proposals" = ⟨10, none, none⟩ := rfl
  refine ⟨hp, ?_, ?_⟩
  · rw [requestFor, hp]
  · rw [governanceGet, governanceGet, hp, hq]

/-- Witness for C6: `status` written before `topic` fails the regex, yet
the query runs with the defaults. -/
theorem C6_witness :
    parseCommand "!proposals status 4 topic 3" = ⟨10, none, none⟩
    ∧ requestFor "!proposals status 4 topic 3" = buildRequest 10 none none
    ∧ governanceGet "!proposals status 4 topic 3" (fun _ => some ⟨4, 2, 50⟩)
        [⟨[⟨1⟩], [⟨some "A", "sa"⟩]⟩]
      = governanceGet "!proposals" (fun _ => some ⟨4, 2, 50⟩)
        [⟨[⟨1⟩], [⟨some "A", "sa"⟩]⟩] :=
  C6_lenient_defaults "!proposals status 4 topic 3"
    (fun _ => some ⟨4, 2, 50⟩) [⟨[⟨1⟩], [⟨some "A", "sa"⟩]⟩] (by rfl)

/-- Claim C7: a successful query emits exactly one record per item that
survives filtering, in the same relative order as the remote list
response — the loop is a single in-order pass with no re-sorting. -/
theorem C7_order_preserved (text : String)
    (details : Nat → Option ProposalDetail) (response : List ProposalHandle)
    (recs : List EmittedRecord)
    (h : governanceGet text details response = .ok recs) :
    recs = survivors (parseCommand text).topicFilter
      (parseCommand text).statusFilter details response :=
  processProposals_ok_eq_survivors _ _ details response recs h

/-- Witness for C7: a three-item response whose middle item is filtered
out; the output is the first and third records in response order. -/
theorem C7_witness :
    ([⟨.str "1", .str "A", .str "a", .str "4", .str "2", .big 10⟩,
      ⟨.str "3", .str "C", .str "c", .str "4", .str "2", .big 30⟩] :
        List EmittedRecord)
      = survivors (some 4) none
        (fun n => if n = 2 then some ⟨7, 2, 20⟩ else some ⟨4, 2, 10 * n⟩)
        [⟨[⟨1⟩], [⟨some "A", "a"⟩]⟩, ⟨[⟨2⟩], [⟨some "B", "b"⟩]⟩,
         ⟨[⟨3⟩], [⟨some "C", "c"⟩]⟩] :=
  C7_order_preserved "!proposals 50 topic 4"
    (fun n => if n = 2 then some ⟨7, 2, 20⟩ else some ⟨4, 2, 10 * n⟩)
    [⟨[⟨1⟩], [⟨some "A", "a"⟩]⟩, ⟨[⟨2⟩], [⟨some "B", "b"⟩]⟩,
     ⟨[⟨3⟩], [⟨some "C", "c"⟩]⟩]
    [⟨.str "1", .str "A", .str "a", .str "4", .str "2", .big 10⟩,
     ⟨.str "3", .str "C", .str "c", .str "4", .str "2", .big 30⟩] (by rfl)

/-- Claim C9: a listed proposal whose upstream title is absent is emitted
with `title` omitted (`undefined`), and one whose upstream summary is
absent (the empty string, the only absent form candid `text` admits) is
emitted with the empty-string default — in both cases the proposal is
emitted rather than failing the query. -/
theorem C9_absent_title_and_summary (t? s? : Option Nat)
    (details : Nat → Option ProposalDetail) (pid : ProposalIdRec)
    (restI : List ProposalIdRec) (sumStr : String) (ttl? : Option String)
    (restP : List ProposalPayload) (info : ProposalDetail)
    (hdet : details pid.id = some info)
    (ht : skipByFilter t? (Nat.repr info.topic) = false)
    (hs : skipByFilter s? (Nat.repr info.status) = false) :
    itemStep t? s? details ⟨pid :: restI, ⟨none, sumStr⟩ :: restP⟩
      = .ok (some ⟨.str (Nat.repr pid.id), .undef,
          .str (jsOrEmptyStr sumStr), .str (Nat.repr info.topic),
          .str (Nat.repr info.status), .big info.proposal_timestamp_seconds⟩)
    ∧ itemStep t? s? details ⟨pid :: restI, ⟨ttl?, ""⟩ :: restP⟩
      = .ok (some ⟨.str (Nat.repr pid.id),
          (match ttl? with | some t => .str t | none => .undef), .str "",
          .str (Nat.repr info.topic), .str (Nat.repr info.status),
          .big info.proposal_timestamp_seconds⟩) := by
  constructor
  · simp [itemStep, hdet, ht, hs]
  · simp [itemStep, hdet, ht, hs, jsOrEmptyStr]

/-- Witness for C9 at a concrete item: absent title emitted as
`undefined`; empty summary emitted as the empty string. -/
theorem C9_witness :
    itemStep none none (fun _ => some ⟨4, 2, 77⟩) ⟨[⟨9⟩], [⟨none, "x"⟩]⟩
      = .ok (some ⟨.str "9", .undef, .str "x", .str "4", .str "2", .big 77⟩)
    ∧ itemStep none none (fun _ => some ⟨4, 2, 77⟩) ⟨[⟨9⟩], [⟨some "T", ""⟩]⟩
      = .ok (some ⟨.str "9", .str "T", .str "", .str "4", .str "2", .big 77⟩) := by
  have h := C9_absent_title_and_summary none none (fun _ => some ⟨4, 2, 77⟩)
    ⟨9⟩ [] "x" (some "T") [] ⟨4, 2, 77⟩ rfl rfl rfl
  exact ⟨h.1, h.2⟩

/-! ### Matcher lemmas for the grammar theorem -/

/-- The head of the list, if any, does not satisfy `p` (a maximal-munch
stop condition). -/
def headNot (p : Char → Bool) : List Char → Bool
  | [] => true
  | c :: _ => !p c

lemma munch_stop (p : Char → Bool) (l : List Char)
    (h : headNot p l = true) : munch p l = ([], l) := by
  cases l with
  | nil => rfl
  | cons c cs =>
    simp only [headNot, Bool.not_eq_true'] at h
    simp [munch, h]

lemma munch_append (p : Char → Bool) (d rest : List Char)
    (hd : ∀ c ∈ d, p c = true) (hr : headNot p rest = true) :
    munch p (d ++ rest) = (d, rest) := by
  induction d with
  | nil => simpa using munch_stop p rest hr
  | cons c cs ih =>
    have hc : p c = true := hd c (by simp)
    simp only [List.cons_append, munch, hc, if_true, List.append_eq]
    rw [ih (fun x hx => hd x (by simp [hx]))]

lemma stripCI_refl : ∀ (l rest : List Char), stripCI l (l ++ rest) = some rest := by
  intro l
  induction l with
  | nil => intro rest; rfl
  | cons c cs ih => intro rest; simp [stripCI, ih]

lemma headNot_append (p : Char → Bool) (k x : List Char) (hk : k ≠ [])
    (h : headNot p k = true) : headNot p (k ++ x) = true := by
  cases k with
  | nil => exact absurd rfl hk
  | cons c cs => simpa [headNot] using h

lemma wsThen_cons (l : List Char) (h : headNot isWsCh l = true) :
    wsThen (' ' :: l) = some l := by
  have hm : munch isWsCh (' ' :: l) = ([' '], l) := by
    simpa using munch_append isWsCh [' '] l (by decide) h
  simp [wsThen, hm]

lemma munchDigits_append (d rest : List Char) (hne : d ≠ [])
    (hd : ∀ c ∈ d, isDigitCh c = true) (hr : headNot isDigitCh rest = true) :
    munchDigits (d ++ rest) = some (d, rest) := by
  simp [munchDigits, munch_append isDigitCh d rest hd hr, hne]

lemma digit_head_not_ws (d rest : List Char) (hne : d ≠ [])
    (hd : ∀ c ∈ d, isDigitCh c = true) :
    headNot isWsCh (d ++ rest) = true := by
  cases d with
  | nil => exact absurd rfl hne
  | cons c cs =>
    have hc := hd c (by simp)
    simp only [isDigitCh, Bool.and_eq_true, decide_eq_true_eq] at hc
    simp only [List.cons_append, headNot, Bool.not_eq_true', isWsCh]
    simp only [Bool.or_eq_false_iff, decide_eq_false_iff_not]
    omega

lemma groupNum_num (dl rest : List Char) (hne : dl ≠ [])
    (hd : ∀ c ∈ dl, isDigitCh c = true) (hr : headNot isDigitCh rest = true) :
    groupNum none (' ' :: (dl ++ rest)) = some (dl, rest) := by
  have h1 := wsThen_cons (dl ++ rest) (digit_head_not_ws dl rest hne hd)
  simp [groupNum, h1, munchDigits_append dl rest hne hd hr]

lemma groupNum_num_fail (l : List Char) (hw : headNot isWsCh l = true)
    (hd : headNot isDigitCh l = true) :
    groupNum none (' ' :: l) = none := by
  have h2 : munchDigits l = none := by
    simp [munchDigits, munch_stop isDigitCh l hd]
  simp [groupNum, wsThen_cons l hw, h2]

lemma groupNum_kw (k dl rest : List Char) (hk : k ≠ [])
    (hkw : headNot isWsCh k = true) (hne : dl ≠ [])
    (hd : ∀ c ∈ dl, isDigitCh c = true) (hr : headNot isDigitCh rest = true) :
    groupNum (some k) (' ' :: (k ++ (' ' :: (dl ++ rest)))) = some (dl, rest) := by
  have h1 := wsThen_cons (k ++ (' ' :: (dl ++ rest)))
    (headNot_append isWsCh k _ hk hkw)
  have h2 := stripCI_refl k (' ' :: (dl ++ rest))
  have h3 := wsThen_cons (dl ++ rest) (digit_head_not_ws dl rest hne hd)
  have h4 := munchDigits_append dl rest hne hd hr
  simp [groupNum, h1, h2, h3, h4]

lemma groupNum_nil (kw : Option (List Char)) : groupNum kw [] = none := rfl

lemma groupNum_kw_mismatch (k l : List Char) (hw : headNot isWsCh l = true)
    (hstrip : stripCI k l = none) :
    groupNum (some k) (' ' :: l) = none := by
  simp [groupNum, wsThen_cons l hw, hstrip]

/-! ### Regex results on each grammar shape

One lemma per combination of present optional fields (`l` limit, `t`
topic, `s` status), on canonical single-space commands with arbitrary
digit captures. -/

lemma regexMatch_lts (dl dt ds : List Char)
    (hlne : dl ≠ []) (hld : ∀ c ∈ dl, isDigitCh c = true)
    (htne : dt ≠ []) (htd : ∀ c ∈ dt, isDigitCh c = true)
    (hsne : ds ≠ []) (hsd : ∀ c ∈ ds, isDigitCh c = true) :
    regexMatchList ("!proposals".data ++ (' ' :: (dl ++ (' ' ::
        ("topic".data ++ (' ' :: (dt ++ (' ' ::
        ("status".data ++ (' ' :: ds))))))))))
      = some (some dl, some dt, some ds) := by
  have h0 := stripCI_refl "!proposals".data (' ' :: (dl ++ (' ' ::
    ("topic".data ++ (' ' :: (dt ++ (' ' ::
    ("status".data ++ (' ' :: ds)))))))))
  have hg1 := groupNum_num dl (' ' :: ("topic".data ++ (' ' :: (dt ++ (' ' ::
    ("status".data ++ (' ' :: ds))))))) hlne hld (by rfl)
  have hg2 := groupNum_kw "topic".data dt (' ' :: ("status".data ++ (' ' :: ds)))
    (by decide) (by decide) htne htd (by rfl)
  have hg3 : groupNum (some "status".data) (' ' :: ("status".data ++ (' ' :: ds)))
      = some (ds, []) := by
    simpa using groupNum_kw "status".data ds [] (by decide) (by decide)
      hsne hsd (by rfl)
  unfold regexMatchList
  rw [h0]
  simp only [optGroup, hg1, hg2, hg3]
  simp [groupNum_nil]

lemma regexMatch_l (dl : List Char)
    (hlne : dl ≠ []) (hld : ∀ c ∈ dl, isDigitCh c = true) :
    regexMatchList ("!proposals".data ++ (' ' :: dl))
      = some (some dl, none, none) := by
  have h0 := stripCI_refl "!proposals".data (' ' :: dl)
  have hg1 : groupNum none (' ' :: dl) = some (dl, []) := by
    simpa using groupNum_num dl [] hlne hld (by rfl)
  unfold regexMatchList
  rw [h0]
  simp only [optGroup, hg1]
  simp [groupNum_nil]

lemma regexMatch_t (dt : List Char)
    (htne : dt ≠ []) (htd : ∀ c ∈ dt, isDigitCh c = true) :
    regexMatchList ("!proposals".data ++ (' ' :: ("topic".data ++ (' ' :: dt))))
      = some (none, some dt, none) := by
  have h0 := stripCI_refl "!proposals".data
    (' ' :: ("topic".data ++ (' ' :: dt)))
  have hg1 := groupNum_num_fail ("topic".data ++ (' ' :: dt)) (by rfl) (by rfl)
  have hg2 : groupNum (some "topic".data) (' ' :: ("topic".data ++ (' ' :: dt)))
      = some (dt, []) := by
    simpa using groupNum_kw "topic".data dt [] (by decide) (by decide)
      htne htd (by rfl)
  unfold regexMatchList
  rw [h0]
  simp only [optGroup, hg1, hg2]
  simp [groupNum_nil]

lemma regexMatch_s (ds : List Char)
    (hsne : ds ≠ []) (hsd : ∀ c ∈ ds, isDigitCh c = true) :
    regexMatchList ("!proposals".data ++ (' ' :: ("status".data ++ (' ' :: ds))))
      = some (none, none, some ds) := by
  have h0 := stripCI_refl "!proposals".data
    (' ' :: ("status".data ++ (' ' :: ds)))
  have hg1 := groupNum_num_fail ("status".data ++ (' ' :: ds)) (by rfl) (by rfl)
  have hg2 := groupNum_kw_mismatch "topic".data ("status".data ++ (' ' :: ds))
    (by rfl) (by rfl)
  have hg3 : groupNum (some "status".data) (' ' :: ("status".data ++ (' ' :: ds)))
      = some (ds, []) := by
    simpa using groupNum_kw "status".data ds [] (by decide) (by decide)
      hsne hsd (by rfl)
  unfold regexMatchList
  rw [h0]
  simp only [optGroup, hg1, hg2, hg3]
  simp [groupNum_nil]

lemma regexMatch_lt (dl dt : List Char)
    (hlne : dl ≠ []) (hld : ∀ c ∈ dl, isDigitCh c = true)
    (htne : dt ≠ []) (htd : ∀ c ∈ dt, isDigitCh c = true) :
    regexMatchList ("!proposals".data ++ (' ' :: (dl ++ (' ' ::
        ("topic".data ++ (' ' :: dt))))))
      = some (some dl, some dt, none) := by
  have h0 := stripCI_refl "!proposals".data
    (' ' :: (dl ++ (' ' :: ("topic".data ++ (' ' :: dt)))))
  have hg1 := groupNum_num dl (' ' :: ("topic".data ++ (' ' :: dt)))
    hlne hld (by rfl)
  have hg2 : groupNum (some "topic".data) (' ' :: ("topic".data ++ (' ' :: dt)))
      = some (dt, []) := by
    simpa using groupNum_kw "topic".data dt [] (by decide) (by decide)
      htne htd (by rfl)
  unfold regexMatchList
  rw [h0]
  simp only [optGroup, hg1, hg2]
  simp [groupNum_nil]

lemma regexMatch_ls (dl ds : List Char)
    (hlne : dl ≠ []) (hld : ∀ c ∈ dl, isDigitCh c = true)
    (hsne : ds ≠ []) (hsd : ∀ c ∈ ds, isDigitCh c = true) :
    regexMatchList ("!proposals".data ++ (' ' :: (dl ++ (' ' ::
        ("status".data ++ (' ' :: ds))))))
      = some (some dl, none, some ds) := by
  have h0 := stripCI_refl "!proposals".data
    (' ' :: (dl ++ (' ' :: ("status".data ++ (' ' :: ds)))))
  have hg1 := groupNum_num dl (' ' :: ("status".data ++ (' ' :: ds)))
    hlne hld (by rfl)
  have hg2 := groupNum_kw_mismatch "topic".data ("status".data ++ (' ' :: ds))
    (by rfl) (by rfl)
  have hg3 : groupNum (some "status".data) (' ' :: ("status".data ++ (' ' :: ds)))
      = some (ds, []) := by
    simpa using groupNum_kw "status".data ds [] (by decide) (by decide)
      hsne hsd (by rfl)
  unfold regexMatchList
  rw [h0]
  simp only [optGroup, hg1, hg2, hg3]
  simp [groupNum_nil]

lemma regexMatch_ts (dt ds : List Char)
    (htne : dt ≠ []) (htd : ∀ c ∈ dt, isDigitCh c = true)
    (hsne : ds ≠ []) (hsd : ∀ c ∈ ds, isDigitCh c = true) :
    regexMatchList ("!proposals".data ++ (' ' :: ("topic".data ++ (' ' ::
        (dt ++ (' ' :: ("status".data ++ (' ' :: ds))))))))
      = some (none, some dt, some ds) := by
  have h0 := stripCI_refl "!proposals".data
    (' ' :: ("topic".data ++ (' ' :: (dt ++ (' ' ::
      ("status".data ++ (' ' :: ds)))))))
  have hg1 := groupNum_num_fail ("topic".data ++ (' ' :: (dt ++ (' ' ::
    ("status".data ++ (' ' :: ds)))))) (by rfl) (by rfl)
  have hg2 := groupNum_kw "topic".data dt (' ' :: ("status".data ++ (' ' :: ds)))
    (by decide) (by decide) htne htd (by rfl)
  have hg3 : groupNum (some "status".data) (' ' :: ("status".data ++ (' ' :: ds)))
      = some (ds, []) := by
    simpa using groupNum_kw "status".data ds [] (by decide) (by decide)
      hsne hsd (by rfl)
  unfold regexMatchList
  rw [h0]
  simp only [optGroup, hg1, hg2, hg3]
  simp [groupNum_nil]

/-- Claim C3: for every command matching the grammar
`!proposals [limit] [topic id] [status id]` (fields optional in this fixed
order, arbitrary digit strings), the parsed limit/topic/status equal the
literal base-10 digits supplied; a missing limit defaults to 10 and a
missing topic/status leaves that filter unset; the limit is passed through
verbatim as the remote request's `limit` field, so a literal `0` limit
parses to 0 and reaches the request unclamped. -/
theorem C3_grammar (dl dt ds : List Char)
    (hl : dl ≠ [] ∧ ∀ c ∈ dl, isDigitCh c = true)
    (ht : dt ≠ [] ∧ ∀ c ∈ dt, isDigitCh c = true)
    (hs : ds ≠ [] ∧ ∀ c ∈ ds, isDigitCh c = true) :
    parseCommand (String.mk ("!proposals".data ++ (' ' :: (dl ++ (' ' ::
        ("topic".data ++ (' ' :: (dt ++ (' ' ::
        ("status".data ++ (' ' :: ds)))))))))))
      = ⟨capturedNat dl, some (capturedNat dt), some (capturedNat ds)⟩
    ∧ parseCommand (String.mk ("!proposals".data ++ (' ' :: dl)))
      = ⟨capturedNat dl, none, none⟩
    ∧ parseCommand (String.mk ("!proposals".data ++ (' ' ::
        ("topic".data ++ (' ' :: dt)))))
      = ⟨10, some (capturedNat dt), none⟩
    ∧ parseCommand (String.mk ("!proposals".data ++ (' ' ::
        ("status".data ++ (' ' :: ds)))))
      = ⟨10, none, some (capturedNat ds)⟩
    ∧ parseCommand (String.mk ("!proposals".data ++ (' ' :: (dl ++ (' ' ::
        ("topic".data ++ (' ' :: dt)))))))
      = ⟨capturedNat dl, some (capturedNat dt), none⟩
    ∧ parseCommand (String.mk ("!proposals".data ++ (' ' :: (dl ++ (' ' ::
        ("status".data ++ (' ' :: ds)))))))
      = ⟨capturedNat dl, none, some (capturedNat ds)⟩
    ∧ parseCommand (String.mk ("!proposals".data ++ (' ' ::
        ("topic".data ++ (' ' :: (dt ++ (' ' ::
        ("status".data ++ (' ' :: ds)))))))))
      = ⟨10, some (capturedNat dt), some (capturedNat ds)⟩
    ∧ parseCommand "!proposals" = ⟨10, none, none⟩
    ∧ (∀ text : String, (requestFor text).limit = (parseCommand text).limit)
    ∧ parseCommand "!proposals 0" = ⟨0, none, none⟩
    ∧ (requestFor "!proposals 0").limit = 0 := by
  obtain ⟨hlne, hld⟩ := hl
  obtain ⟨htne, htd⟩ := ht
  obtain ⟨hsne, hsd⟩ := hs
  refine ⟨?_, ?_, ?_, ?_, ?_, ?_, ?_, rfl, fun _ => rfl, rfl, rfl⟩
  · have e := regexMatch_lts dl dt ds hlne hld htne htd hsne hsd
    unfold parseCommand
    rw [show (String.mk ("!proposals".data ++ (' ' :: (dl ++ (' ' ::
      ("topic".data ++ (' ' :: (dt ++ (' ' ::
      ("status".data ++ (' ' :: ds))))))))))).data
      = "!proposals".data ++ (' ' :: (dl ++ (' ' ::
      ("topic".data ++ (' ' :: (dt ++ (' ' ::
      ("status".data ++ (' ' :: ds))))))))) from rfl, e]
    rfl
  · have e := regexMatch_l dl hlne hld
    unfold parseCommand
    rw [show (String.mk ("!proposals".data ++ (' ' :: dl))).data
      = "!proposals".data ++ (' ' :: dl) from rfl, e]
    rfl
  · have e := regexMatch_t dt htne htd
    unfold parseCommand
    rw [show (String.mk ("!proposals".data ++ (' ' ::
      ("topic".data ++ (' ' :: dt))))).data
      = "!proposals".data ++ (' ' :: ("topic".data ++ (' ' :: dt))) from rfl, e]
    rfl
  · have e := regexMatch_s ds hsne hsd
    unfold parseCommand
    rw [show (String.mk ("!proposals".data ++ (' ' ::
      ("status".data ++ (' ' :: ds))))).data
      = "!proposals".data ++ (' ' :: ("status".data ++ (' ' :: ds))) from rfl, e]
    rfl
  · have e := regexMatch_lt dl dt hlne hld htne htd
    unfold parseCommand
    rw [show (String.mk ("!proposals".data ++ (' ' :: (dl ++ (' ' ::
      ("topic".data ++ (' ' :: dt))))))).data
      = "!proposals".data ++ (' ' :: (dl ++ (' ' ::
      ("topic".data ++ (' ' :: dt))))) from rfl, e]
    rfl
  · have e := regexMatch_ls dl ds hlne hld hsne hsd
    unfold parseCommand
    rw [show (String.mk ("!proposals".data ++ (' ' :: (dl ++ (' ' ::
      ("status".data ++ (' ' :: ds))))))).data
      = "!proposals".data ++ (' ' :: (dl ++ (' ' ::
      ("status".data ++ (' ' :: ds))))) from rfl, e]
    rfl
  · have e := regexMatch_ts dt ds htne htd hsne hsd
    unfold parseCommand
    rw [show (String.mk ("!proposals".data ++ (' ' ::
      ("topic".data ++ (' ' :: (dt ++ (' ' ::
      ("status".data ++ (' ' :: ds))))))))).data
      = "!proposals".data ++ (' ' :: ("topic".data ++ (' ' :: (dt ++ (' ' ::
      ("status".data ++ (' ' :: ds))))))) from rfl, e]
    rfl

/-- Counterexample to claim C1 as stated: `include_status` is not always
the single-element list `[s]` for the parsed status `s`, because
`Int32Array.from` wraps via ToInt32. At the reachable command
`!proposals 10 status 4294967296` the parsed status is 4294967296 but the
request carries `[0]`. -/
theorem C1_counterexample :
    parseCommand "!proposals 10 status 4294967296"
      = ⟨10, none, some 4294967296⟩
    ∧ (requestFor "!proposals 10 status 4294967296").include_status
      = [(0 : Int)]
    ∧ [(0 : Int)] ≠ [(4294967296 : Int)] :=
  ⟨rfl, rfl, by decide⟩

/-- Witness for C3 at concrete digit strings, including the zero-limit
pass-through. -/
theorem C3_witness :
    parseCommand "!proposals 42 topic 7 status 3" = ⟨42, some 7, some 3⟩
    ∧ parseCommand "!proposals 0" = ⟨0, none, none⟩
    ∧ (requestFor "!proposals 0").limit = 0 := by
  have h := C3_grammar ['4', '2'] ['7'] ['3'] (by decide) (by decide) (by decide)
  exact ⟨h.1, h.2.2.2.2.2.2.2.2.2.1, h.2.2.2.2.2.2.2.2.2.2⟩

end ICPNNS
